import Mathlib

/-!
# Verification of the spuria request-handling pipeline

A shallow embedding of the request-handling core of `main.go` (package
`main` of the spuria repository): access control by IP allowlist, the
fixed-window rate limiter, parameter substitution and validation,
command execution, response formatting, and the logging wrapper.

Conventions of the embedding:

* Go strings are modelled by Lean `String` (a list of characters).
* The Go map `map[string]int` used as the request counter is modelled as a
  total function `String → Nat` (a missing key reads as `0`, exactly as in
  Go).  The Go map `map[string]bool` of allowlisted addresses is modelled
  as `String → Bool` (a missing key reads as `false`; the loader only ever
  stores `true`, so membership coincides with the stored value).
* The compiled regular expression `config.ReplaceRegex` is modelled by its
  observable behaviour, a matcher function `String → Bool` (the program
  only calls `MatchString`).  `defaultRegexMatch` below models the default
  pattern from the `-replaceregex` flag.
* `os/exec` running `bash -c <command>` is an external effect; it is
  modelled by an oracle `run : String → RunResult` giving, for a command
  string, whether `Run` returned a nil error together with the captured
  stdout and stderr texts.
* Go `panic` is modelled by `Except GoPanic`; the `recover` in the logging
  wrapper catches it.
* The request body is modelled as a `String` field of the request
  (`io.ReadAll` of the body is assumed to succeed, as it does for the
  in-memory requests of the test suite; its failure path is another
  `panic` that no claim touches).
-/

namespace Spuria

/-- Result of one `bash -c` child process: whether `ec.Run()` returned a
nil error, and the texts captured in the stdout / stderr buffers. -/
structure RunResult where
  ok : Bool
  stdout : String
  stderr : String
deriving DecidableEq

/-- The resolved configuration, mirroring `type Config struct` in
`main.go` lines 23-36.  `ReplaceRegex` is the matcher behaviour of the
compiled regular expression. -/
structure Config where
  Port : Nat
  IP : String
  IPwhitelist : Bool
  WhitelistedIPs : String → Bool
  CsvPath : String
  LogPath : String
  StaticCommand : String
  ReturnResult : Bool
  RateLimit : Nat
  ReplaceParam : Bool
  ReplaceRegex : String → Bool
  DontStopReplacing : Bool

/-- Characters admitted by the default `-replaceregex` pattern (flag
default, `main.go` line 73): space, ASCII letters, digits, slash,
hyphen — the anchored character class of the flag. -/
def defaultRegexChar (c : Char) : Bool :=
  c == ' ' || (('a' ≤ c) && (c ≤ 'z')) || (('A' ≤ c) && (c ≤ 'Z')) ||
  (('0' ≤ c) && (c ≤ '9')) || c == '/' || c == '-'

/-- `MatchString` of the default anchored pattern: every character of the
string lies in the character class. -/
def defaultRegexMatch (s : String) : Bool :=
  s.data.all defaultRegexChar

/-- An incoming HTTP request as seen by the handler: method, URL path,
`RemoteAddr`, the parsed query values (`r.URL.Query()`, a name to
ordered-list-of-values association, given here in some iteration order),
and the raw body bytes. -/
structure Request where
  method : String
  path : String
  remoteAddr : String
  query : List (String × List String)
  body : String
deriving DecidableEq

/-- Go panics that can be raised inside the handler: `panic(err)` after a
failing `net.SplitHostPort` (line 161), and the index-out-of-range fault
of `values[0]` on an empty value slice (line 246). -/
inductive GoPanic where
  | addrParse
  | indexOutOfRange
deriving DecidableEq

/-- An HTTP response as observed by the client: status code and body. -/
structure Response where
  status : Nat
  body : String
deriving DecidableEq

/-- The error component of `ExecuteCommand`: the three validation errors
of the parameter loop (lines 252, 261, 269) and a non-nil result of
`ec.Run()` (non-zero exit or spawn failure). -/
inductive ExecErr where
  | paramCount
  | paramName
  | paramRegex
  | runFailure
deriving DecidableEq

/-- The observable result of `ExecuteCommand`: the `(error, stdout,
stderr)` triple of the Go function, plus the instrumentation flag `ran`
recording whether `ec.Run()` was reached (used to state that validation
failures never spawn a command). -/
structure ExecOut where
  err : Option ExecErr
  stdout : String
  stderr : String
  ran : Bool
deriving DecidableEq

/-- Result of the parameter-substitution loop: a Go panic, a validation
error ending the request, or the final command string. -/
inductive SubstResult where
  | panic
  | err (e : ExecErr)
  | ok (cmd : String)
deriving DecidableEq

/-- `strings.HasPrefix`. -/
def goHasPrefix (s p : String) : Bool :=
  p.data.isPrefixOf s.data

/-- `strings.ReplaceAll` worker: one left-to-right scan replacing each
non-overlapping leftmost occurrence of `old` by `new`.  `fuel` is a
structural-recursion bound; it is always instantiated with the length of
the scanned list, which suffices because each step consumes at least one
character. -/
def replaceGo : Nat → List Char → List Char → List Char → List Char
  | 0, s, _, _ => s
  | _ + 1, [], _, _ => []
  | fuel + 1, c :: t, old, new =>
    if old.isPrefixOf (c :: t) then
      new ++ replaceGo fuel ((c :: t).drop old.length) old new
    else
      c :: replaceGo fuel t old new

/-- `strings.ReplaceAll s old new`.  For an empty `old`, Go inserts `new`
at every character boundary including both ends; the program only ever
passes names that begin with the character `$`, so that branch is
unreachable in context but is modelled for fidelity. -/
def goReplaceAll (s old new : String) : String :=
  if old.data.isEmpty then
    ⟨new.data ++ (s.data.map (fun c => c :: new.data)).flatten⟩
  else
    ⟨replaceGo s.data.length s.data old.data new.data⟩

/-- `net.SplitHostPort`, restricted to the host component the handler
uses.  The split is at the last colon; an address without a colon is a
missing-port error (`none`).  A host containing further colons must be a
bracketed IPv6 literal, whose brackets are stripped; other malformed
bracket placements are errors.  (The full stdlib validation of stray
brackets after the port is not modelled; no claim depends on it.) -/
def splitHostPort (s : String) : Option String :=
  let cs := s.data
  match cs.reverse.findIdx? (fun c => c == ':') with
  | none => none
  | some j =>
    let host := cs.take (cs.length - 1 - j)
    if host.contains ':' then
      if host.head? == some '[' && host.getLast? == some ']' then
        some ⟨(host.drop 1).dropLast⟩
      else
        none
    else
      some ⟨host⟩

/-- The substitution candidates of `ExecuteCommand` (lines 234-243):
the parsed query for a GET request; for a POST request the candidate set
is replaced by the single synthetic parameter `$body` holding the full
request body. -/
def candidateParams (req : Request) : List (String × List String) :=
  if req.method = "POST" then [("$body", [req.body])] else req.query

/-- The parameter loop of `ExecuteCommand` (lines 245-273), iterating
over the candidates in the order of the given list (Go map iteration
order is arbitrary; claims about order quantify over this list).  For
each candidate: `value := values[0]` panics on an empty slice; a slice
with more than one value, a name lacking the `$` sigil, or a value not
matched by the configured regular expression is a rejection, which in
strict mode (the default) aborts with a validation error and in lenient
mode (`-nostop`) skips the candidate; an accepted candidate replaces
every occurrence of its name in the command by its value. -/
def replaceParams (cfg : Config) : String → List (String × List String) → SubstResult
  | cmd, [] => .ok cmd
  | cmd, (name, values) :: rest =>
    match values with
    | [] => .panic
    | value :: tail =>
      if tail.length + 1 > 1 then
        if cfg.DontStopReplacing then replaceParams cfg cmd rest
        else .err .paramCount
      else if ¬ goHasPrefix name "$" then
        if cfg.DontStopReplacing then replaceParams cfg cmd rest
        else .err .paramName
      else if ¬ cfg.ReplaceRegex value then
        if cfg.DontStopReplacing then replaceParams cfg cmd rest
        else .err .paramRegex
      else
        replaceParams cfg (goReplaceAll cmd name value) rest

/-- The substitution phase of `ExecuteCommand` (line 244): the loop runs
only when there is at least one candidate and `-replaceparam` is set;
otherwise the command template is used verbatim. -/
def substPhase (cfg : Config) (req : Request) (cmd : String) : SubstResult :=
  if 0 < (candidateParams req).length ∧ cfg.ReplaceParam = true then
    replaceParams cfg cmd (candidateParams req)
  else
    .ok cmd

/-- `ExecuteCommand` (lines 233-284): substitution, then `bash -c` on the
final command, returning the error / stdout / stderr triple.  A
validation error returns `("", "")` for the captured texts without
spawning a process. -/
def executeCommand (cfg : Config) (run : String → RunResult) (req : Request)
    (cmd : String) : Except GoPanic ExecOut :=
  match substPhase cfg req cmd with
  | .panic => .error .indexOutOfRange
  | .err e => .ok ⟨some e, "", "", false⟩
  | .ok c =>
    let r := run c
    .ok ⟨if r.ok then none else some .runFailure, r.stdout, r.stderr, true⟩

/-- The shared mutable state of `NewServer` (lines 141-146): the request
counter map and the single shared window deadline (`resetTime`, a Unix
timestamp). -/
structure ServerState where
  reqCounter : String → Nat
  resetTime : Int

/-- Go map assignment `m[k] = v` on the counter map. -/
def setCount (f : String → Nat) (p : String) (n : Nat) : String → Nat :=
  fun q => if q = p then n else f q

/-- The rate limiter block (lines 171-184): increment the counter of the
requested path; if the current time has passed the shared deadline, reset
that counter to 1 and advance the deadline by 60 seconds; finally flag
rejection when the counter exceeds a non-zero limit. -/
def rateCheck (cfg : Config) (now : Int) (st : ServerState) (path : String) :
    ServerState × Bool :=
  let c1 := setCount st.reqCounter path (st.reqCounter path + 1)
  let st1 : ServerState :=
    if now > st.resetTime then ⟨setCount c1 path 1, now + 60⟩ else ⟨c1, st.resetTime⟩
  (st1, decide (st1.reqCounter path > cfg.RateLimit ∧ cfg.RateLimit ≠ 0))

/-- Outcome of one request through the catch-all handler: the written
response or an escaped panic, the post-request shared state, and the
instrumentation flag recording whether a child process was spawned. -/
structure HandleOut where
  result : Except GoPanic Response
  state : ServerState
  ran : Bool

/-- The execution-and-response tail of the handler (lines 192-207): map
the `ExecuteCommand` outcome to status 500 with body stderr / `ERR`, or
status 200 with body stdout / `OK`, the body choice governed by
`-returnresult` (verbose) mode. -/
def execPhase (cfg : Config) (run : String → RunResult) (req : Request)
    (cmd : String) : Except GoPanic Response × Bool :=
  match executeCommand cfg run req cmd with
  | .error p => (.error p, false)
  | .ok eo =>
    if eo.err.isSome then
      (.ok ⟨500, if cfg.ReturnResult then eo.stderr else "ERR"⟩, eo.ran)
    else
      (.ok ⟨200, if cfg.ReturnResult then eo.stdout else "OK"⟩, eo.ran)

/-- The catch-all handler registered on pattern `/` (lines 153-208):
method filter (405), `net.SplitHostPort` (panic on failure), the IP
allowlist gate (403 `NOACCESS`), the rate limiter (429 with empty body),
route lookup (404 via `http.NotFound`), then command execution. -/
def handleRoot (cfg : Config) (fm : String → Option String)
    (run : String → RunResult) (now : Int) (st : ServerState)
    (req : Request) : HandleOut :=
  if req.method ≠ "GET" ∧ req.method ≠ "POST" then
    ⟨.ok ⟨405, "Method Not Allowed"⟩, st, false⟩
  else
    match splitHostPort req.remoteAddr with
    | none => ⟨.error .addrParse, st, false⟩
    | some ip =>
      if cfg.IPwhitelist = true ∧ cfg.WhitelistedIPs ip = false then
        ⟨.ok ⟨403, "NOACCESS"⟩, st, false⟩
      else
        let rc := rateCheck cfg now st req.path
        if rc.2 = true then
          ⟨.ok ⟨429, ""⟩, rc.1, false⟩
        else
          match fm req.path with
          | none => ⟨.ok ⟨404, "404 page not found\n"⟩, rc.1, false⟩
          | some cmd =>
            let e := execPhase cfg run req cmd
            ⟨e.1, rc.1, e.2⟩

/-- Body written by the `GET /metrics` handler (lines 149-152). -/
def metricsBody : String := "# TYPE isupdummy counter\nisupdummy 1\n"

/-- The `ServeMux` of `NewServer`: the exact pattern `GET /metrics` takes
precedence over the catch-all `/` pattern. -/
def serveMux (cfg : Config) (fm : String → Option String)
    (run : String → RunResult) (now : Int) (st : ServerState)
    (req : Request) : HandleOut :=
  if req.method = "GET" ∧ req.path = "/metrics" then
    ⟨.ok ⟨200, metricsBody⟩, st, false⟩
  else
    handleRoot cfg fm run now st req

/-- One structured log line of `WrapLogging` (line 227): remote address,
URL, the status recorded by the instrumented response writer, and the
value returned by `recover` (present exactly when the handler
panicked). -/
structure LogEntry where
  remoteAddr : String
  url : String
  status : Nat
  err : Option GoPanic
deriving DecidableEq

/-- The full observable outcome of one request through the logging
wrapper: the response received by the client, the log line, and whether
the serving loop continues (it always does: the deferred `recover`
swallows any panic). -/
structure WrappedOut where
  resp : Response
  logged : LogEntry
  continues : Bool

/-- `WrapLogging` (lines 221-231): the deferred function always runs,
calls `recover`, and writes one log line.  When the inner handler
panicked, nothing was written to the response, so the client receives the
implicit `200` with empty body that `net/http` produces for a handler
that returns without writing, and the logged status is the zero value of
the instrumented writer.  (For the `/metrics` handler, which never calls
`WriteHeader`, the logged status field would also read 0; no claim
concerns that log line, and the response model is unaffected.) -/
def wrapLogging (req : Request) (out : HandleOut) : WrappedOut :=
  match out.result with
  | .ok r => ⟨r, ⟨req.remoteAddr, req.path, r.status, none⟩, true⟩
  | .error p => ⟨⟨200, ""⟩, ⟨req.remoteAddr, req.path, 0, some p⟩, true⟩

/-- One request through `WrapLogging (mux)`, the handler returned by
`NewServer`. -/
def serve (cfg : Config) (fm : String → Option String)
    (run : String → RunResult) (now : Int) (st : ServerState)
    (req : Request) : WrappedOut × ServerState :=
  let o := serveMux cfg fm run now st req
  (wrapLogging req o, o.state)

/-- A sequence of requests through the catch-all handler, threading the
shared rate-limiter state; each request contributes its result and its
executor-invocation flag. -/
def serveSeq (cfg : Config) (fm : String → Option String)
    (run : String → RunResult) (now : Int) :
    List Request → ServerState →
    List (Except GoPanic Response × Bool) × ServerState
  | [], st => ([], st)
  | r :: rs, st =>
    let o := handleRoot cfg fm run now st r
    let rest := serveSeq cfg fm run now rs o.state
    ((o.result, o.ran) :: rest.1, rest.2)

/-- Specification of the i-th outcome (0-based) of a run of identical
in-window requests to one routed path whose counter starts at `c`: the
request is rejected with 429 and no execution exactly when the
incremented counter exceeds a non-zero limit; otherwise the outcome is
that of the execution phase, which depends on the command outcome
alone. -/
def outSpec (cfg : Config) (run : String → RunResult) (req : Request)
    (cmd : String) (c i : Nat) : Except GoPanic Response × Bool :=
  if cfg.RateLimit < c + i + 1 ∧ cfg.RateLimit ≠ 0 then
    (.ok ⟨429, ""⟩, false)
  else
    ((execPhase cfg run req cmd).1, (execPhase cfg run req cmd).2)

/-- A candidate parameter that the loop of `ExecuteCommand` accepts:
exactly one value, a name carrying the `$` sigil, and a value matched by
the configured regular expression. -/
def goodParam (cfg : Config) (p : String × List String) : Bool :=
  match p.2 with
  | [v] => goHasPrefix p.1 "$" && cfg.ReplaceRegex v
  | _ => false

/-- The validation error the loop reports for a rejected candidate with a
non-empty value slice: the checks run in the order count, sigil, regex. -/
def errOf (p : String × List String) : ExecErr :=
  match p.2 with
  | _ :: _ :: _ => .paramCount
  | _ => if !(goHasPrefix p.1 "$") then .paramName else .paramRegex

/-- The replacement an accepted candidate performs on the command. -/
def applyParam (cmd : String) (p : String × List String) : String :=
  goReplaceAll cmd p.1 (p.2.headD "")

/-! ### Concrete fixtures used by witnesses and counterexamples

The allowlist below is what `parseFlags` builds for the default
`-allowedips 127.0.0.1`; the route table holds one route `/do` mapped to
`echo hi`; the oracle reports a successful run printing `hi`. -/

/-- Allowlist loaded from `-allowedips 127.0.0.1`. -/
def wlLocal : String → Bool := fun s => s == "127.0.0.1"

/-- Quiet-mode configuration: allowlist filtering on, limit 10,
substitution off, strict. -/
def cfgBase : Config :=
  ⟨4870, "127.0.0.1", true, wlLocal, "", "stdout", "", false, 10, false,
   defaultRegexMatch, false⟩

/-- Quiet-mode configuration with substitution enabled (strict). -/
def cfgReplace : Config :=
  ⟨4870, "127.0.0.1", true, wlLocal, "", "stdout", "", false, 10, true,
   defaultRegexMatch, false⟩

/-- Lenient substitution configuration (`-nostop`). -/
def cfgLenient : Config :=
  ⟨4870, "127.0.0.1", true, wlLocal, "", "stdout", "", false, 10, true,
   defaultRegexMatch, true⟩

/-- Configuration with rate limit 2, used by the rate-limiter witness. -/
def cfgLimit2 : Config :=
  ⟨4870, "127.0.0.1", true, wlLocal, "", "stdout", "", false, 2, false,
   defaultRegexMatch, false⟩

/-- Route table holding the single route `/do` mapped to `echo hi`. -/
def fmDo : String → Option String :=
  fun p => if p = "/do" then some "echo hi" else none

/-- Empty route table. -/
def fmEmpty : String → Option String := fun _ => none

/-- Run oracle: every command succeeds printing `hi`. -/
def runHi : String → RunResult := fun _ => ⟨true, "hi\n", ""⟩

/-- Initial shared state: all counters zero, deadline at Unix time 100. -/
def st0 : ServerState := ⟨fun _ => 0, 100⟩

/-- A state with counter 7 for `/b` and 5 everywhere else. -/
def stMix : ServerState := ⟨fun p => if p = "/b" then 7 else 5, 100⟩

/-- An allowed GET request to `/do`. -/
def reqAllowed : Request := ⟨"GET", "/do", "127.0.0.1:123", [], ""⟩

/-- A GET request to `/do` from a non-allowlisted address. -/
def reqDenied : Request := ⟨"GET", "/do", "3.3.3.3:123", [], ""⟩

/-- An allowed POST request carrying a body and a (discarded) query. -/
def reqPost : Request :=
  ⟨"POST", "/do", "127.0.0.1:123", [("$x", ["q"])], "B"⟩

/-- An allowed GET request whose peer address lacks a port, making
`net.SplitHostPort` fail. -/
def reqNoPort : Request := ⟨"GET", "/do", "localhost", [], ""⟩

/-- An allowed GET request carrying one invalid parameter (name lacking
the `$` sigil) followed by one valid parameter. -/
def reqBadParam : Request :=
  ⟨"GET", "/do", "127.0.0.1:123", [("noDollar", ["v"]), ("$ok", ["fine"])], ""⟩

/-! ### Helper lemmas -/

theorem setCount_same (f : String → Nat) (p : String) (n : Nat) :
    setCount f p n p = n := by
  simp [setCount]

theorem setCount_other (f : String → Nat) (p q : String) (n : Nat)
    (h : q ≠ p) : setCount f p n q = f q := by
  simp [setCount, h]

/-- Unfolding of the handler for a request that passes the method filter,
address parsing, and the allowlist gate: only the rate limiter, the route
lookup and execution remain. -/
theorem handleRoot_pass_guard (cfg : Config) (fm : String → Option String)
    (run : String → RunResult) (now : Int) (st : ServerState)
    (req : Request) (ip : String)
    (hm : req.method = "GET" ∨ req.method = "POST")
    (hsp : splitHostPort req.remoteAddr = some ip)
    (hgw : cfg.IPwhitelist = true → cfg.WhitelistedIPs ip = true) :
    handleRoot cfg fm run now st req =
      if (rateCheck cfg now st req.path).2 = true then
        ⟨.ok ⟨429, ""⟩, (rateCheck cfg now st req.path).1, false⟩
      else
        match fm req.path with
        | none =>
          ⟨.ok ⟨404, "404 page not found\n"⟩, (rateCheck cfg now st req.path).1, false⟩
        | some cmd =>
          ⟨(execPhase cfg run req cmd).1, (rateCheck cfg now st req.path).1,
           (execPhase cfg run req cmd).2⟩ := by
  have hmeth : ¬(req.method ≠ "GET" ∧ req.method ≠ "POST") :=
    fun h => hm.elim h.1 h.2
  have hgrd : ¬(cfg.IPwhitelist = true ∧ cfg.WhitelistedIPs ip = false) := by
    rintro ⟨h1, h2⟩
    rw [hgw h1] at h2
    cases h2
  simp only [handleRoot, hsp]
  rw [if_neg hmeth, if_neg hgrd]

/-- After the guard, every branch of the handler leaves the shared state
produced by the rate-limiter block. -/
theorem handleRoot_state_eq (cfg : Config) (fm : String → Option String)
    (run : String → RunResult) (now : Int) (st : ServerState)
    (req : Request) (ip : String)
    (hm : req.method = "GET" ∨ req.method = "POST")
    (hsp : splitHostPort req.remoteAddr = some ip)
    (hgw : cfg.IPwhitelist = true → cfg.WhitelistedIPs ip = true) :
    (handleRoot cfg fm run now st req).state =
      (rateCheck cfg now st req.path).1 := by
  rw [handleRoot_pass_guard cfg fm run now st req ip hm hsp hgw]
  split
  · rfl
  · split <;> rfl

/-! ### Claims -/

/-- Claim C1: a GET or POST request whose remote address (with port
stripped) is not in the allowlist while filtering is enabled receives
HTTP 403 with the fixed body `NOACCESS`, the shared state (counter map
and window deadline) is returned unchanged, and the command executor is
never invoked. -/
theorem claim_c1_access_denied_frame (cfg : Config)
    (fm : String → Option String) (run : String → RunResult) (now : Int)
    (st : ServerState) (req : Request) (ip : String)
    (hm : req.method = "GET" ∨ req.method = "POST")
    (hsp : splitHostPort req.remoteAddr = some ip)
    (hwl : cfg.IPwhitelist = true)
    (hip : cfg.WhitelistedIPs ip = false) :
    handleRoot cfg fm run now st req = ⟨.ok ⟨403, "NOACCESS"⟩, st, false⟩ := by
  have hmeth : ¬(req.method ≠ "GET" ∧ req.method ≠ "POST") :=
    fun h => hm.elim h.1 h.2
  simp only [handleRoot, hsp]
  rw [if_neg hmeth, if_pos ⟨hwl, hip⟩]

theorem claim_c1_access_denied_frame_witness :
    splitHostPort "3.3.3.3:123" = some "3.3.3.3" ∧
    cfgBase.WhitelistedIPs "3.3.3.3" = false ∧
    handleRoot cfgBase fmDo runHi 50 st0 reqDenied =
      ⟨.ok ⟨403, "NOACCESS"⟩, st0, false⟩ :=
  ⟨by decide, by decide,
   claim_c1_access_denied_frame cfgBase fmDo runHi 50 st0 reqDenied "3.3.3.3"
     (Or.inl rfl) (by decide) rfl (by decide)⟩

/-- Claim C5, counterexample to the claim as stated: with allowlist
filtering enabled and a non-allowlisted caller, a request to a path that
is not in the route table is answered 403, not 404 — the response to an
unmapped path is not independent of the allowlist configuration. -/
theorem claim_c5_counterexample :
    fmEmpty "/do" = none ∧
    (handleRoot cfgBase fmEmpty runHi 50 st0 reqDenied).result =
      Except.ok ⟨403, "NOACCESS"⟩ ∧
    (403 : Nat) ≠ 404 :=
  ⟨rfl, rfl, by decide⟩

/-- Claim C5 (amended): a GET or POST request to a path not present in
the route table is answered HTTP 404 provided it passes the allowlist
gate and is not rejected by the rate limiter; the executor is not
invoked.  (The access check and the rate limiter run first, so a denied
address yields 403 and an over-limit path yields 429 even when the path
is unmapped.) -/
theorem claim_c5_unmapped_404 (cfg : Config) (fm : String → Option String)
    (run : String → RunResult) (now : Int) (st : ServerState)
    (req : Request) (ip : String)
    (hm : req.method = "GET" ∨ req.method = "POST")
    (hsp : splitHostPort req.remoteAddr = some ip)
    (hgw : cfg.IPwhitelist = true → cfg.WhitelistedIPs ip = true)
    (hrl : (rateCheck cfg now st req.path).2 = false)
    (hroute : fm req.path = none) :
    handleRoot cfg fm run now st req =
      ⟨.ok ⟨404, "404 page not found\n"⟩, (rateCheck cfg now st req.path).1,
       false⟩ := by
  rw [handleRoot_pass_guard cfg fm run now st req ip hm hsp hgw]
  rw [if_neg (by rw [hrl]; exact Bool.false_ne_true), hroute]

theorem claim_c5_unmapped_404_witness :
    fmEmpty "/do" = none ∧
    (rateCheck cfgBase 50 st0 "/do").2 = false ∧
    handleRoot cfgBase fmEmpty runHi 50 st0 reqAllowed =
      ⟨.ok ⟨404, "404 page not found\n"⟩, (rateCheck cfgBase 50 st0 "/do").1,
       false⟩ :=
  ⟨rfl, by decide,
   claim_c5_unmapped_404 cfgBase fmEmpty runHi 50 st0 reqAllowed "127.0.0.1"
     (Or.inl rfl) (by decide) (fun _ => by decide) (by decide) rfl⟩

/-- Claim C7: when a request that reaches the rate limiter arrives after
the shared window deadline has passed, the counter of the requested path
is reset to 1 (counting the current request), the single shared deadline
advances to now+60s, and the counters of all other paths are left
unchanged. -/
theorem claim_c7_window_reset (cfg : Config) (fm : String → Option String)
    (run : String → RunResult) (now : Int) (st : ServerState)
    (req : Request) (ip : String)
    (hm : req.method = "GET" ∨ req.method = "POST")
    (hsp : splitHostPort req.remoteAddr = some ip)
    (hgw : cfg.IPwhitelist = true → cfg.WhitelistedIPs ip = true)
    (hnow : now > st.resetTime) :
    (handleRoot cfg fm run now st req).state.reqCounter req.path = 1 ∧
    (handleRoot cfg fm run now st req).state.resetTime = now + 60 ∧
    ∀ q, q ≠ req.path →
      (handleRoot cfg fm run now st req).state.reqCounter q =
        st.reqCounter q := by
  rw [handleRoot_state_eq cfg fm run now st req ip hm hsp hgw]
  refine ⟨?_, ?_, ?_⟩
  · simp [rateCheck, hnow, setCount]
  · simp [rateCheck, hnow]
  · intro q hq
    simp [rateCheck, hnow, setCount, hq]

theorem claim_c7_window_reset_witness :
    (200 : Int) > stMix.resetTime ∧
    (handleRoot cfgBase fmDo runHi 200 stMix reqAllowed).state.reqCounter "/do" = 1 ∧
    (handleRoot cfgBase fmDo runHi 200 stMix reqAllowed).state.resetTime = 260 ∧
    (handleRoot cfgBase fmDo runHi 200 stMix reqAllowed).state.reqCounter "/b" = 7 := by
  have h := claim_c7_window_reset cfgBase fmDo runHi 200 stMix reqAllowed
    "127.0.0.1" (Or.inl rfl) (by decide) (fun _ => by decide) (by decide)
  exact ⟨by decide, h.1, h.2.1, h.2.2 "/b" (by decide)⟩

/-- Claim C8, counterexample to the claim as stated: a malformed peer
address panics inside the handler; the logging wrapper recovers and logs
the fault and the server continues, but the client response is the
implicit 200 with empty body — no 500-class response is produced. -/
theorem claim_c8_counterexample :
    (serve cfgBase fmDo runHi 50 st0 reqNoPort).1.logged.err =
      some .addrParse ∧
    (serve cfgBase fmDo runHi 50 st0 reqNoPort).1.continues = true ∧
    (serve cfgBase fmDo runHi 50 st0 reqNoPort).1.resp.status = 200 ∧
    ¬(500 ≤ (serve cfgBase fmDo runHi 50 st0 reqNoPort).1.resp.status ∧
      (serve cfgBase fmDo runHi 50 st0 reqNoPort).1.resp.status < 600) :=
  ⟨rfl, rfl, rfl, by decide⟩

/-- Claim C8 (amended): any panic escaping the per-request pipeline is
intercepted by the outermost logging wrapper, which logs one line
carrying the triggering detail, and the serving loop continues; the
response the client receives is the implicit status-200 empty response
(nothing having been written before the fault), not a 500-class one. -/
theorem claim_c8_fault_logged_continues (cfg : Config)
    (fm : String → Option String) (run : String → RunResult) (now : Int)
    (st : ServerState) (req : Request) (p : GoPanic)
    (hp : (serveMux cfg fm run now st req).result = Except.error p) :
    wrapLogging req (serveMux cfg fm run now st req) =
      ⟨⟨200, ""⟩, ⟨req.remoteAddr, req.path, 0, some p⟩, true⟩ := by
  simp only [wrapLogging, hp]

theorem claim_c8_fault_logged_continues_witness :
    (serveMux cfgBase fmDo runHi 50 st0 reqNoPort).result =
      Except.error .addrParse ∧
    wrapLogging reqNoPort (serveMux cfgBase fmDo runHi 50 st0 reqNoPort) =
      ⟨⟨200, ""⟩, ⟨"localhost", "/do", 0, some .addrParse⟩, true⟩ :=
  ⟨rfl,
   claim_c8_fault_logged_continues cfgBase fmDo runHi 50 st0 reqNoPort
     .addrParse rfl⟩

/-- Claim C10: for a POST request the substitution candidate set is
exactly the single synthetic parameter `$body` holding the full request
body, and the query string is discarded — the outcome of
`ExecuteCommand` does not depend on it. -/
theorem claim_c10_post_body_param (cfg : Config) (run : String → RunResult)
    (req : Request) (cmd : String) (hpost : req.method = "POST") :
    candidateParams req = [("$body", [req.body])] ∧
    ∀ q : List (String × List String),
      executeCommand cfg run { req with query := q } cmd =
        executeCommand cfg run req cmd := by
  constructor
  · simp [candidateParams, hpost]
  · intro q
    simp [executeCommand, substPhase, candidateParams, hpost]

theorem claim_c10_post_body_param_witness :
    candidateParams reqPost = [("$body", ["B"])] ∧
    executeCommand cfgReplace runHi { reqPost with query := [] } "echo $body" =
      executeCommand cfgReplace runHi reqPost "echo $body" :=
  ⟨(claim_c10_post_body_param cfgReplace runHi reqPost "echo $body" rfl).1,
   (claim_c10_post_body_param cfgReplace runHi reqPost "echo $body" rfl).2 []⟩

/-- Claim C6, evaluated at the failing input: iterating the Go map in
the two possible orders over the parameters `$a ↦ x` and `$ab ↦ y` (both
single-valued, `$`-prefixed, and matched by the default allow-regex)
substitutes the template `echo $ab` to two different final commands, so
the net result of the replacement loop is not order-independent and the
untouched-placeholder guarantee fails (`$a` rewrites the interior of the
placeholder `$ab`). -/
theorem claim_c6_order_dependence :
    List.Perm [("$a", ["x"]), ("$ab", ["y"])] [("$ab", ["y"]), ("$a", ["x"])] ∧
    replaceParams cfgReplace "echo $ab" [("$a", ["x"]), ("$ab", ["y"])] =
      .ok "echo xb" ∧
    replaceParams cfgReplace "echo $ab" [("$ab", ["y"]), ("$a", ["x"])] =
      .ok "echo y" ∧
    ("echo xb" : String) ≠ "echo y" :=
  ⟨List.Perm.swap _ _ _, rfl, rfl, by decide⟩

/-- In strict mode the parameter loop stops at the first rejected
candidate, reporting the validation error of its first failing check. -/
theorem replaceParams_strict (cfg : Config)
    (hstop : cfg.DontStopReplacing = false) :
    ∀ (params : List (String × List String)) (cmd : String)
      (p : String × List String),
      (∀ q ∈ params, q.2 ≠ []) →
      params.find? (fun q => !(goodParam cfg q)) = some p →
      replaceParams cfg cmd params = .err (errOf p) := by
  intro params
  induction params with
  | nil =>
    intro cmd p _ hfind
    simp [List.find?] at hfind
  | cons a rest ih =>
    intro cmd p hne hfind
    obtain ⟨name, values⟩ := a
    obtain ⟨v, t, rfl⟩ : ∃ v t, values = v :: t := by
      cases values with
      | nil => exact absurd rfl (hne (name, []) (List.mem_cons_self _ _))
      | cons v t => exact ⟨v, t, rfl⟩
    by_cases hg : goodParam cfg (name, v :: t) = true
    · have hfind' : rest.find? (fun q => !(goodParam cfg q)) = some p := by
        rwa [List.find?_cons_of_neg _ (by simp [hg])] at hfind
      have ht : t = [] := by
        cases t with
        | nil => rfl
        | cons w t2 => simp [goodParam] at hg
      subst ht
      obtain ⟨hpref, hregex⟩ : goHasPrefix name "$" = true ∧
          cfg.ReplaceRegex v = true := by
        simpa [goodParam, Bool.and_eq_true] using hg
      simp only [replaceParams]
      rw [if_neg (by simp), if_neg (by simp [hpref]), if_neg (by simp [hregex])]
      exact ih _ p (fun q hq => hne q (List.mem_cons_of_mem _ hq)) hfind'
    · have hg' : goodParam cfg (name, v :: t) = false := by simpa using hg
      have hp : (name, v :: t) = p := by
        rw [List.find?_cons_of_pos _ (by simp [hg'])] at hfind
        exact Option.some.inj hfind
      subst hp
      cases t with
      | cons w t2 =>
        simp only [replaceParams]
        rw [if_pos (by simp), hstop]
        simp [errOf]
      | nil =>
        by_cases hpref : goHasPrefix name "$" = true
        · have hreg : cfg.ReplaceRegex v = false := by
            cases hr : cfg.ReplaceRegex v with
            | true => exact absurd (by simp [goodParam, hpref, hr]) hg
            | false => rfl
          simp only [replaceParams]
          rw [if_neg (by simp), if_neg (by simp [hpref]),
            if_pos (by simp [hreg]), hstop]
          simp [errOf, hpref]
        · have hpf : goHasPrefix name "$" = false := by simpa using hpref
          simp only [replaceParams]
          rw [if_neg (by simp), if_pos (by simp [hpf]), hstop]
          simp [errOf, hpf]

/-- In lenient mode the parameter loop skips every rejected candidate and
applies the accepted ones in order. -/
theorem replaceParams_lenient (cfg : Config)
    (hstop : cfg.DontStopReplacing = true) :
    ∀ (params : List (String × List String)) (cmd : String),
      (∀ q ∈ params, q.2 ≠ []) →
      replaceParams cfg cmd params =
        .ok (List.foldl applyParam cmd (params.filter (goodParam cfg))) := by
  intro params
  induction params with
  | nil =>
    intro cmd _
    simp [replaceParams]
  | cons a rest ih =>
    intro cmd hne
    obtain ⟨name, values⟩ := a
    obtain ⟨v, t, rfl⟩ : ∃ v t, values = v :: t := by
      cases values with
      | nil => exact absurd rfl (hne (name, []) (List.mem_cons_self _ _))
      | cons v t => exact ⟨v, t, rfl⟩
    have hne' : ∀ q ∈ rest, q.2 ≠ [] :=
      fun q hq => hne q (List.mem_cons_of_mem _ hq)
    cases t with
    | cons w t2 =>
      simp only [replaceParams]
      rw [if_pos (by simp), hstop]
      rw [if_pos rfl, ih _ hne']
      congr 1
    | nil =>
      by_cases hpref : goHasPrefix name "$" = true
      · by_cases hreg : cfg.ReplaceRegex v = true
        · have hgood : goodParam cfg (name, [v]) = true := by
            simp [goodParam, hpref, hreg]
          simp only [replaceParams]
          rw [if_neg (by simp), if_neg (by simp [hpref]),
            if_neg (by simp [hreg]), ih _ hne']
          congr 1
          rw [List.filter_cons_of_pos (by simp [hgood]), List.foldl_cons]
          rfl
        · have hrg : cfg.ReplaceRegex v = false := by simpa using hreg
          simp only [replaceParams]
          rw [if_neg (by simp), if_neg (by simp [hpref]),
            if_pos (by simp [hrg]), hstop, if_pos rfl, ih _ hne']
          congr 1
          rw [List.filter_cons_of_neg (by simp [goodParam, hrg])]
      · have hpf : goHasPrefix name "$" = false := by simpa using hpref
        simp only [replaceParams]
        rw [if_neg (by simp), if_pos (by simp [hpf]), hstop, if_pos rfl,
          ih _ hne']
        congr 1
        rw [List.filter_cons_of_neg (by simp [goodParam, hpf])]

/-- Claim C3: with substitution enabled, a candidate with more than one
value, a name without the `$` sigil, or a value rejected by the
allow-regex is rejected; in strict mode (the default) the first rejected
candidate aborts the request with its validation error and the executor
is never reached, while in lenient mode the rejected candidates are
skipped and the remaining ones are still applied before execution.  (The
hypothesis that every value slice is non-empty reflects `url.Values`,
which never maps a name to an empty slice.) -/
theorem claim_c3_param_validation (cfg : Config) (run : String → RunResult)
    (req : Request) (cmd : String)
    (hrp : cfg.ReplaceParam = true)
    (hne : ∀ q ∈ candidateParams req, q.2 ≠ []) :
    (cfg.DontStopReplacing = false →
      ∀ p, (candidateParams req).find? (fun q => !(goodParam cfg q)) = some p →
        executeCommand cfg run req cmd = .ok ⟨some (errOf p), "", "", false⟩) ∧
    (cfg.DontStopReplacing = true →
      executeCommand cfg run req cmd =
        .ok ⟨if (run (List.foldl applyParam cmd
                ((candidateParams req).filter (goodParam cfg)))).ok then none
             else some .runFailure,
             (run (List.foldl applyParam cmd
                ((candidateParams req).filter (goodParam cfg)))).stdout,
             (run (List.foldl applyParam cmd
                ((candidateParams req).filter (goodParam cfg)))).stderr,
             true⟩) := by
  constructor
  · intro hstop p hfind
    have hnonnil : candidateParams req ≠ [] := by
      intro h
      rw [h] at hfind
      simp [List.find?] at hfind
    have hlen : 0 < (candidateParams req).length :=
      List.length_pos.mpr hnonnil
    have hsub : substPhase cfg req cmd = .err (errOf p) := by
      rw [substPhase, if_pos ⟨hlen, hrp⟩]
      exact replaceParams_strict cfg hstop _ cmd p hne hfind
    simp [executeCommand, hsub]
  · intro hstop
    by_cases hnil : candidateParams req = []
    · have hsub : substPhase cfg req cmd = .ok cmd := by
        rw [substPhase, if_neg (by simp [hnil])]
      simp [executeCommand, hsub, hnil]
    · have hlen : 0 < (candidateParams req).length :=
        List.length_pos.mpr hnil
      have hsub : substPhase cfg req cmd =
          .ok (List.foldl applyParam cmd
            ((candidateParams req).filter (goodParam cfg))) := by
        rw [substPhase, if_pos ⟨hlen, hrp⟩]
        exact replaceParams_lenient cfg hstop _ cmd hne
      simp [executeCommand, hsub]

theorem claim_c3_param_validation_witness :
    (candidateParams reqBadParam).find?
        (fun q => !(goodParam cfgReplace q)) = some ("noDollar", ["v"]) ∧
    executeCommand cfgReplace runHi reqBadParam "echo hi" =
      .ok ⟨some .paramName, "", "", false⟩ ∧
    executeCommand cfgLenient runHi reqBadParam "echo $ok" =
      .ok ⟨none, "hi\n", "", true⟩ :=
  ⟨rfl,
   (claim_c3_param_validation cfgReplace runHi reqBadParam "echo hi" rfl
      (by decide)).1 rfl ("noDollar", ["v"]) rfl,
   (claim_c3_param_validation cfgLenient runHi reqBadParam "echo $ok" rfl
      (by decide)).2 rfl⟩

/-- Claim C4: for a request that reaches execution, a successful command
yields HTTP 200 with body the captured stdout in verbose mode and the
token `OK` in quiet mode; a failed run (non-zero exit or spawn failure)
yields HTTP 500 with body the captured stderr in verbose mode and `ERR`
in quiet mode; a validation failure yields HTTP 500 with body the
(empty) returned stderr in verbose mode and `ERR` in quiet mode, and the
executor is not invoked. -/
theorem claim_c4_outcome_response (cfg : Config)
    (fm : String → Option String) (run : String → RunResult) (now : Int)
    (st : ServerState) (req : Request) (ip : String) (cmd : String)
    (hm : req.method = "GET" ∨ req.method = "POST")
    (hsp : splitHostPort req.remoteAddr = some ip)
    (hgw : cfg.IPwhitelist = true → cfg.WhitelistedIPs ip = true)
    (hrl : (rateCheck cfg now st req.path).2 = false)
    (hroute : fm req.path = some cmd) :
    (∀ c out errout, substPhase cfg req cmd = .ok c →
      run c = ⟨true, out, errout⟩ →
      handleRoot cfg fm run now st req =
        ⟨.ok ⟨200, if cfg.ReturnResult then out else "OK"⟩,
         (rateCheck cfg now st req.path).1, true⟩) ∧
    (∀ c out errout, substPhase cfg req cmd = .ok c →
      run c = ⟨false, out, errout⟩ →
      handleRoot cfg fm run now st req =
        ⟨.ok ⟨500, if cfg.ReturnResult then errout else "ERR"⟩,
         (rateCheck cfg now st req.path).1, true⟩) ∧
    (∀ e, substPhase cfg req cmd = .err e →
      handleRoot cfg fm run now st req =
        ⟨.ok ⟨500, if cfg.ReturnResult then "" else "ERR"⟩,
         (rateCheck cfg now st req.path).1, false⟩) := by
  have hpg := handleRoot_pass_guard cfg fm run now st req ip hm hsp hgw
  rw [if_neg (by rw [hrl]; exact Bool.false_ne_true), hroute] at hpg
  refine ⟨?_, ?_, ?_⟩
  · intro c out errout hsub hrun
    rw [hpg]
    simp [execPhase, executeCommand, hsub, hrun]
  · intro c out errout hsub hrun
    rw [hpg]
    simp [execPhase, executeCommand, hsub, hrun]
  · intro e hsub
    rw [hpg]
    simp [execPhase, executeCommand, hsub]

theorem claim_c4_outcome_response_witness :
    substPhase cfgBase reqAllowed "echo hi" = .ok "echo hi" ∧
    runHi "echo hi" = ⟨true, "hi\n", ""⟩ ∧
    handleRoot cfgBase fmDo runHi 50 st0 reqAllowed =
      ⟨.ok ⟨200, "OK"⟩, (rateCheck cfgBase 50 st0 "/do").1, true⟩ :=
  ⟨rfl, rfl,
   (claim_c4_outcome_response cfgBase fmDo runHi 50 st0 reqAllowed
      "127.0.0.1" "echo hi" (Or.inl rfl) (by decide) (fun _ => by decide)
      (by decide) rfl).1 "echo hi" "hi\n" "" rfl rfl⟩

/-- Shifting the starting counter of `outSpec` by one is the same as
shifting the request index. -/
theorem outSpec_succ (cfg : Config) (run : String → RunResult)
    (req : Request) (cmd : String) (c i : Nat) :
    outSpec cfg run req cmd (c + 1) i = outSpec cfg run req cmd c (i + 1) := by
  simp only [outSpec]
  have h : c + 1 + i + 1 = c + (i + 1) + 1 := by omega
  rw [h]

/-- One in-window step of a guarded request to a routed path: the
response and executor flag follow `outSpec` at index 0, the counter of
the path is incremented, and the deadline is unchanged. -/
theorem handleRoot_inWindow (cfg : Config) (fm : String → Option String)
    (run : String → RunResult) (now : Int) (st : ServerState)
    (req : Request) (ip : String) (cmd : String)
    (hm : req.method = "GET" ∨ req.method = "POST")
    (hsp : splitHostPort req.remoteAddr = some ip)
    (hgw : cfg.IPwhitelist = true → cfg.WhitelistedIPs ip = true)
    (hroute : fm req.path = some cmd)
    (hnow : ¬ now > st.resetTime) :
    handleRoot cfg fm run now st req =
      ⟨(outSpec cfg run req cmd (st.reqCounter req.path) 0).1,
       ⟨setCount st.reqCounter req.path (st.reqCounter req.path + 1),
        st.resetTime⟩,
       (outSpec cfg run req cmd (st.reqCounter req.path) 0).2⟩ := by
  rw [handleRoot_pass_guard cfg fm run now st req ip hm hsp hgw]
  have hrc1 : (rateCheck cfg now st req.path).1 =
      ⟨setCount st.reqCounter req.path (st.reqCounter req.path + 1),
       st.resetTime⟩ := by
    simp [rateCheck, hnow]
  have h2 : (rateCheck cfg now st req.path).2 =
      decide (cfg.RateLimit < st.reqCounter req.path + 1 ∧
        cfg.RateLimit ≠ 0) := by
    simp [rateCheck, hnow, setCount]
  by_cases hcond : cfg.RateLimit < st.reqCounter req.path + 1 ∧
      cfg.RateLimit ≠ 0
  · have ho : outSpec cfg run req cmd (st.reqCounter req.path) 0 =
        (.ok ⟨429, ""⟩, false) := by
      simp only [outSpec]
      rw [if_pos (by simpa using hcond)]
    rw [if_pos (by rw [h2]; exact decide_eq_true hcond), hrc1, ho]
  · have ho : outSpec cfg run req cmd (st.reqCounter req.path) 0 =
        ((execPhase cfg run req cmd).1, (execPhase cfg run req cmd).2) := by
      simp only [outSpec]
      rw [if_neg (by simpa using hcond)]
    rw [if_neg (by rw [h2]; simpa using hcond), hroute, hrc1, ho]

/-- The rate limiter reads and writes the shared state only through the
counter of the requested path and the shared deadline. -/
theorem rateCheck_congr (cfg : Config) (now : Int) (st1 st2 : ServerState)
    (path : String)
    (hc : st1.reqCounter path = st2.reqCounter path)
    (hr : st1.resetTime = st2.resetTime) :
    (rateCheck cfg now st1 path).2 = (rateCheck cfg now st2 path).2 ∧
    (rateCheck cfg now st1 path).1.reqCounter path =
      (rateCheck cfg now st2 path).1.reqCounter path ∧
    (rateCheck cfg now st1 path).1.resetTime =
      (rateCheck cfg now st2 path).1.resetTime := by
  by_cases hreset : now > st2.resetTime
  · simp [rateCheck, hr, hreset, setCount_same]
  · simp [rateCheck, hr, hreset, setCount_same, hc]

/-- The response to a request, and whether it executes a command, depend
on the shared state only through the counter of its own path and the
shared deadline; the resulting counter of that path and deadline likewise.
In particular requests to a path are unaffected by the counters of all
other paths. -/
theorem handleRoot_counter_congr (cfg : Config)
    (fm : String → Option String) (run : String → RunResult) (now : Int)
    (st1 st2 : ServerState) (req : Request)
    (hc : st1.reqCounter req.path = st2.reqCounter req.path)
    (hr : st1.resetTime = st2.resetTime) :
    (handleRoot cfg fm run now st1 req).result =
      (handleRoot cfg fm run now st2 req).result ∧
    (handleRoot cfg fm run now st1 req).ran =
      (handleRoot cfg fm run now st2 req).ran ∧
    (handleRoot cfg fm run now st1 req).state.reqCounter req.path =
      (handleRoot cfg fm run now st2 req).state.reqCounter req.path ∧
    (handleRoot cfg fm run now st1 req).state.resetTime =
      (handleRoot cfg fm run now st2 req).state.resetTime := by
  by_cases hmeth : req.method ≠ "GET" ∧ req.method ≠ "POST"
  · simp [handleRoot, hmeth, hc, hr]
  · cases hsp : splitHostPort req.remoteAddr with
    | none => simp [handleRoot, hmeth, hsp, hc, hr]
    | some ip =>
      by_cases hgd : cfg.IPwhitelist = true ∧ cfg.WhitelistedIPs ip = false
      · simp [handleRoot, hmeth, hsp, hgd, hc, hr]
      · obtain ⟨h2, hcnt, hrst⟩ := rateCheck_congr cfg now st1 st2 req.path hc hr
        simp only [handleRoot, hsp]
        rw [if_neg hmeth, if_neg hmeth, if_neg hgd, if_neg hgd, h2]
        by_cases hlim : (rateCheck cfg now st2 req.path).2 = true
        · simp [hlim, hcnt, hrst]
        · rw [if_neg hlim, if_neg hlim]
          cases hfm : fm req.path with
          | none => simp [hcnt, hrst]
          | some cmd => simp [hcnt, hrst]

/-- A run of `m` identical guarded in-window requests to a routed path:
the outcomes follow `outSpec` from the starting counter, the counter of
the path advances by `m`, and the shared deadline never moves. -/
theorem serveSeq_replicate (cfg : Config) (fm : String → Option String)
    (run : String → RunResult) (now : Int) (req : Request) (ip : String)
    (cmd : String)
    (hm : req.method = "GET" ∨ req.method = "POST")
    (hsp : splitHostPort req.remoteAddr = some ip)
    (hgw : cfg.IPwhitelist = true → cfg.WhitelistedIPs ip = true)
    (hroute : fm req.path = some cmd) :
    ∀ (m : Nat) (st : ServerState), ¬ now > st.resetTime →
      (serveSeq cfg fm run now (List.replicate m req) st).1 =
        (List.range m).map
          (outSpec cfg run req cmd (st.reqCounter req.path)) ∧
      (serveSeq cfg fm run now (List.replicate m req) st).2.reqCounter
          req.path = st.reqCounter req.path + m ∧
      (serveSeq cfg fm run now (List.replicate m req) st).2.resetTime =
        st.resetTime := by
  intro m
  induction m with
  | zero =>
    intro st _
    simp [serveSeq]
  | succ m ih =>
    intro st hnow
    have hstep := handleRoot_inWindow cfg fm run now st req ip cmd
      hm hsp hgw hroute hnow
    rw [List.replicate_succ]
    simp only [serveSeq]
    rw [hstep]
    obtain ⟨ih1, ih2, ih3⟩ := ih
      ⟨setCount st.reqCounter req.path (st.reqCounter req.path + 1),
       st.resetTime⟩ hnow
    have hcN : setCount st.reqCounter req.path
        (st.reqCounter req.path + 1) req.path =
        st.reqCounter req.path + 1 := setCount_same _ _ _
    refine ⟨?_, ?_, ?_⟩
    · rw [ih1]
      simp only [hcN]
      rw [List.range_succ_eq_map, List.map_cons, List.map_map]
      congr 1
      refine List.map_congr_left (fun i _ => ?_)
      show outSpec cfg run req cmd (st.reqCounter req.path + 1) i =
        outSpec cfg run req cmd (st.reqCounter req.path) (i + 1)
      exact outSpec_succ cfg run req cmd (st.reqCounter req.path) i
    · rw [ih2]
      simp only [hcN]
      omega
    · exact ih3

/-- Claim C2: with a non-zero limit N, for a run of N+1 identical
guarded in-window requests to a routed path whose counter starts at 0,
each of the first N requests reaches route lookup and execution, its
response determined by the command outcome alone, while the (N+1)-th
request is answered 429 with an empty body without invoking the
executor; and the response to a request for any other path — and whether
it executes — does not depend on the counter of the limited path. -/
theorem claim_c2_rate_limit_window (cfg : Config)
    (fm : String → Option String) (run : String → RunResult) (now : Int)
    (req : Request) (ip : String) (cmd : String)
    (hm : req.method = "GET" ∨ req.method = "POST")
    (hsp : splitHostPort req.remoteAddr = some ip)
    (hgw : cfg.IPwhitelist = true → cfg.WhitelistedIPs ip = true)
    (hN : cfg.RateLimit ≠ 0)
    (hroute : fm req.path = some cmd)
    (stA : ServerState)
    (hc0 : stA.reqCounter req.path = 0)
    (hnow : ¬ now > stA.resetTime) :
    (∀ i, i < cfg.RateLimit →
      (serveSeq cfg fm run now
        (List.replicate (cfg.RateLimit + 1) req) stA).1[i]? =
        some ((execPhase cfg run req cmd).1,
              (execPhase cfg run req cmd).2)) ∧
    (serveSeq cfg fm run now
      (List.replicate (cfg.RateLimit + 1) req) stA).1[cfg.RateLimit]? =
      some (Except.ok ⟨429, ""⟩, false) ∧
    (∀ (st1 st2 : ServerState) (q : Request), q.path ≠ req.path →
      st1.reqCounter q.path = st2.reqCounter q.path →
      st1.resetTime = st2.resetTime →
      (handleRoot cfg fm run now st1 q).result =
        (handleRoot cfg fm run now st2 q).result ∧
      (handleRoot cfg fm run now st1 q).ran =
        (handleRoot cfg fm run now st2 q).ran) := by
  obtain ⟨h1, -, -⟩ := serveSeq_replicate cfg fm run now req ip cmd
    hm hsp hgw hroute (cfg.RateLimit + 1) stA hnow
  rw [hc0] at h1
  refine ⟨?_, ?_, ?_⟩
  · intro i hi
    rw [h1, List.getElem?_map, List.getElem?_range (by omega)]
    have ho : outSpec cfg run req cmd 0 i =
        ((execPhase cfg run req cmd).1, (execPhase cfg run req cmd).2) := by
      simp only [outSpec]
      rw [if_neg (fun h => absurd h.1 (by omega))]
    rw [Option.map_some', ho]
  · rw [h1, List.getElem?_map, List.getElem?_range (by omega)]
    have ho : outSpec cfg run req cmd 0 cfg.RateLimit =
        (Except.ok ⟨429, ""⟩, false) := by
      simp only [outSpec]
      rw [if_pos ⟨by omega, hN⟩]
    rw [Option.map_some', ho]
  · intro st1 st2 q _ hcq hrq
    obtain ⟨ha, hb, -, -⟩ :=
      handleRoot_counter_congr cfg fm run now st1 st2 q hcq hrq
    exact ⟨ha, hb⟩

theorem claim_c2_rate_limit_window_witness :
    cfgLimit2.RateLimit = 2 ∧
    (serveSeq cfgLimit2 fmDo runHi 50
      (List.replicate 3 reqAllowed) st0).1[0]? =
      some (Except.ok ⟨200, "OK"⟩, true) ∧
    (serveSeq cfgLimit2 fmDo runHi 50
      (List.replicate 3 reqAllowed) st0).1[1]? =
      some (Except.ok ⟨200, "OK"⟩, true) ∧
    (serveSeq cfgLimit2 fmDo runHi 50
      (List.replicate 3 reqAllowed) st0).1[2]? =
      some (Except.ok ⟨429, ""⟩, false) := by
  have h := claim_c2_rate_limit_window cfgLimit2 fmDo runHi 50 reqAllowed
    "127.0.0.1" "echo hi" (Or.inl rfl) (by decide) (fun _ => by decide)
    (by decide) rfl st0 rfl (by decide)
  exact ⟨rfl, h.1 0 (by decide), h.1 1 (by decide), h.2.1⟩

end Spuria
